import Mathlib

/-!
# Verification of the Crucible asynchronous job-processing pipeline

Shallow embedding of the backend services of the Crucible repository:

* `jobQueue.js`    — job store (enqueue, get, update status, pending query)
* `userLock.js`    — per-user lease with expiry
* `responseRouter.js` — channel-polymorphic delivery of results and errors
* `asyncWorker.js` — polling worker: claim, lock, process, deliver, unlock

Timestamps are epoch milliseconds modelled as `Nat` (the lock table stores
epoch seconds, obtained by division, exactly as the JavaScript divides by
1000).  DynamoDB tables are modelled as association lists / functions; the
`StatusCreatedAtIndex` query first passes DynamoDB's validation — every
attribute referenced by the `KeyConditionExpression` must be a key of the
queried index, so the optional `#channel` conjunct is rejected with a
`ValidationException` — and an accepted query filters by the key-condition
predicate the code builds, ordered ascending by the index range key
`createdAt` and capped at `Limit`.  External transports (Twilio, push
gateway, user-profile store) are parameters of a `RouterEnv` record, since
they live outside the services under verification.
-/

namespace Crucible

/-- Job lifecycle status, the four string values used by `jobQueue.js`. -/
inductive Status : Type
  | pending
  | processing
  | completed
  | failed
deriving DecidableEq, Repr

/-- A terminal `result` attribute as written by `asyncWorker.processJob`:
either `{response, completedAt, processingTime}` on success or
`{error, failedAt, processingTime}` on failure. -/
inductive JobResult : Type
  | success (response : String) (completedAt : Nat) (processingTime : Nat)
  | failure (error : String) (failedAt : Nat) (processingTime : Nat)
deriving DecidableEq, Repr

/-- Channel-specific attribute bag; the router only ever reads
`channelData.phoneNumber`, which may be absent. -/
structure ChannelData : Type where
  phoneNumber : Option String
deriving DecidableEq, Repr

/-- A job record as stored by `jobQueue.enqueueJob`.  `jobId` models the
UUID as a number drawn from the store's freshness counter. -/
structure Job : Type where
  jobId : Nat
  status : Status
  createdAt : Nat
  updatedAt : Option Nat
  ttl : Nat
  channel : String
  userId : String
  prompt : String
  channelData : ChannelData
  priority : String
  result : Option JobResult
deriving DecidableEq, Repr

/-- The job table plus the id-freshness counter standing in for the UUID
generator. -/
structure JobStore : Type where
  jobs : List Job
  nextId : Nat
deriving Repr

/-- Input object of `enqueueJob`.  String fields are `Option String` so
that both JavaScript `undefined` and the empty string can be modelled;
`truthy` below captures JavaScript truthiness for them. -/
structure JobData : Type where
  channel : Option String
  userId : Option String
  prompt : Option String
  channelData : Option ChannelData
  priority : Option String
deriving Repr

/-- JavaScript truthiness of an optional string: `undefined` and `""` are
falsy, every other string is truthy. -/
def truthy : Option String → Bool
  | none => false
  | some s => !(s == "")

/-- The channel whitelist `['mobile', 'whatsapp']` of `enqueueJob`. -/
def validChannel (c : String) : Bool :=
  c == "mobile" || c == "whatsapp"

/-- DynamoDB `PutCommand`: insert or replace the item with the same key. -/
def putJob (jobs : List Job) (item : Job) : List Job :=
  item :: jobs.filter (fun j => j.jobId != item.jobId)

/-- `jobQueue.enqueueJob` — validates the input, then puts a fresh
`pending` record.  On the error path the table is untouched (the
JavaScript throws before the `PutCommand`). -/
def enqueueJob (store : JobStore) (now : Nat) (d : JobData) :
    Except String (Nat × JobStore) :=
  if !(truthy d.channel) || !(truthy d.userId) || !(truthy d.prompt) then
    .error "Missing required fields: channel, userId, prompt"
  else if !(validChannel (d.channel.getD "")) then
    .error "Invalid channel. Must be \"mobile\" or \"whatsapp\""
  else
    .ok (store.nextId,
      { jobs := putJob store.jobs
          { jobId := store.nextId
            status := .pending
            createdAt := now
            updatedAt := none
            ttl := now / 1000 + 10 * 60
            channel := d.channel.getD ""
            userId := d.userId.getD ""
            prompt := d.prompt.getD ""
            channelData := d.channelData.getD ⟨none⟩
            priority := if truthy d.priority then d.priority.getD "" else "normal"
            result := none }
        nextId := store.nextId + 1 })

/-- `jobQueue.getJob` — DynamoDB `GetCommand` by key. -/
def getJob (store : JobStore) (jobId : Nat) : Option Job :=
  store.jobs.find? (fun j => j.jobId == jobId)

/-- `jobQueue.updateJobStatus` — unconditionally sets `status` and
`updatedAt`, and sets `result` only when one is passed.  There is no
condition expression: whatever status is stored is overwritten. -/
def updateJobStatus (store : JobStore) (now : Nat) (jobId : Nat)
    (status : Status) (result : Option JobResult) : JobStore :=
  { store with
    jobs := store.jobs.map (fun j =>
      if j.jobId == jobId then
        { j with
          status := status
          updatedAt := some now
          result := match result with
            | some r => some r
            | none => j.result }
      else j) }

/-- The key-condition predicate built by `getPendingJobs`:
`#status = :pending and #createdAt <= :now` plus the optional
`#channel = :channel` conjunct. -/
def pendingDueP (now : Nat) (channel : Option String) (j : Job) : Bool :=
  j.status == Status.pending && j.createdAt ≤ now &&
    (match channel with
      | none => true
      | some c => j.channel == c)

/-- Ascending order on the `StatusCreatedAtIndex` range key. -/
def createdLE (a b : Job) : Prop := a.createdAt ≤ b.createdAt

instance : DecidableRel createdLE := fun a b => by
  unfold createdLE; infer_instance

instance : IsTotal Job createdLE :=
  ⟨fun a b => Nat.le_total a.createdAt b.createdAt⟩

instance : IsTrans Job createdLE :=
  ⟨fun _ _ _ h h' => Nat.le_trans h h'⟩

/-- Key attributes of `StatusCreatedAtIndex` as declared in
`scripts/create-tables.js`: `status` (HASH) and `createdAt` (RANGE). -/
def statusCreatedAtIndexKeys : List String := ["status", "createdAt"]

/-- Attribute names referenced by the `KeyConditionExpression` that
`getPendingJobs` builds: `#status` and `#createdAt` always, plus
`#channel` when a channel is supplied. -/
def keyConditionAttributes (channel : Option String) : List String :=
  match channel with
  | none => ["status", "createdAt"]
  | some _ => ["status", "createdAt", "channel"]

/-- `jobQueue.getPendingJobs` — the `QueryCommand` on
`StatusCreatedAtIndex`.  DynamoDB accepts a `KeyConditionExpression`
only when every attribute it references is a key of the queried index,
so the optional `#channel = :channel` conjunct — `channel` is not a key
of `StatusCreatedAtIndex` — makes the service reject the call with a
`ValidationException` instead of running the query.  An accepted query
returns the items satisfying the key condition, ascending by `createdAt`
(the default `ScanIndexForward`), at most `Limit` items. -/
def getPendingJobs (store : JobStore) (now : Nat) (limit : Nat)
    (channel : Option String) : Except String (List Job) :=
  if (keyConditionAttributes channel).all
      (fun a => statusCreatedAtIndexKeys.contains a) then
    .ok (((store.jobs.filter (pendingDueP now channel)).insertionSort
      createdLE).take limit)
  else
    .error "ValidationException: KeyConditionExpression references non-key attribute"

/-! ## User lock service (`userLock.js`) -/

/-- A row of the user-locks table: `{userId, status, ttl}` with `ttl` in
epoch seconds. -/
structure LockRecord : Type where
  status : String
  ttl : Nat
deriving DecidableEq, Repr

/-- The user-locks table, keyed by `userId`. -/
def LockStore : Type := String → Option LockRecord

/-- `userLock.lockUser` — unconditional `PutCommand` of a `locked` row
expiring `ttlSeconds` after now (now in epoch seconds, i.e. ms / 1000). -/
def lockUser (ls : LockStore) (userId : String) (nowMs : Nat)
    (ttlSeconds : Nat) : LockStore :=
  fun u => if u == userId then some ⟨"locked", nowMs / 1000 + ttlSeconds⟩ else ls u

/-- `userLock.isUserLocked` — row exists, `status === 'locked'`, and
`ttl > now` in epoch seconds. -/
def isUserLocked (ls : LockStore) (userId : String) (nowMs : Nat) : Bool :=
  match ls userId with
  | none => false
  | some r => r.status == "locked" && r.ttl > nowMs / 1000

/-- `userLock.unlockUser` — unconditional `DeleteCommand`. -/
def unlockUser (ls : LockStore) (userId : String) : LockStore :=
  fun u => if u == userId then none else ls u

/-! ## Response router (`responseRouter.js`)

The external transports (Twilio, Firebase push gateway, user-profile
store) are outside the verified services, so the router is parameterised
over them via `RouterEnv`; each transport call either succeeds or raises,
matching §6 of the design (transports "raise on malformed address or
transport failure"). -/

/-- A push-gateway error; `code` carries the Firebase error code the
router inspects to evict invalid tokens. -/
structure PushError : Type where
  code : String
  message : String
deriving DecidableEq, Repr

/-- Behaviour of the external collaborators of the router. -/
structure RouterEnv : Type where
  twilioConfigured : Bool
  sendWhatsAppMessage : String → String → Except String Unit
  sendCrucibleResponse : String → String → String → Except String Unit
  getFCMToken : String → Option String
  hasPushEnabled : String → Bool
  sendJobCompletionPush : String → Nat → String → Except PushError Unit
  sendJobErrorPush : String → Nat → String → Except PushError Unit
  removeFCMToken : String → Except String Unit

/-- Observable delivery actions of the router. -/
inductive DeliveryEvent : Type
  | whatsAppSent (phoneNumber : String) (message : String)
  | crucibleResponseSent (phoneNumber : String) (jobId : Nat)
  | completionPushSent (token : String) (jobId : Nat)
  | errorPushSent (token : String) (jobId : Nat)
  | tokenRemoved (userId : String)
deriving DecidableEq, Repr

/-- The Firebase error codes on which the router evicts the stored
token. -/
def invalidTokenCode (c : String) : Bool :=
  c == "messaging/invalid-registration-token" ||
    c == "messaging/registration-token-not-registered"

/-- The literal timeout error raised by the worker's race timer. -/
def aiTimeoutMessage : String := "AI processing timeout"

/-- Generic user-facing failure text of `sendWhatsAppError`. -/
def genericErrorText : String :=
  "Sorry, I encountered an error processing your request. Please try again."

/-- "Took too long" user-facing text of `sendWhatsAppError`. -/
def timeoutErrorText : String :=
  "Sorry, your request took too long to process. Please try a simpler question or try again later."

/-- `ResponseRouter.sendWhatsAppResponse` — raises when Twilio is not
configured or the phone number is absent, otherwise forwards to the
transport, whose failure propagates. -/
def sendWhatsAppResponse (env : RouterEnv) (job : Job) (response : String) :
    Except String (List DeliveryEvent) :=
  if !env.twilioConfigured then .error "Twilio is not properly configured"
  else
    match job.channelData.phoneNumber with
    | none => .error "Phone number not found in channel data"
    | some phone =>
      match env.sendCrucibleResponse phone job.prompt response with
      | .ok _ => .ok [.crucibleResponseSent phone job.jobId]
      | .error e => .error e

/-- `ResponseRouter.sendMobileResponse` — best-effort push: a failing push
is caught and swallowed, evicting the token on an invalid-token code
(where a failing eviction itself propagates). -/
def sendMobileResponse (env : RouterEnv) (job : Job) (response : String) :
    Except String (List DeliveryEvent) :=
  match env.getFCMToken job.userId with
  | none => .ok []
  | some token =>
    if env.hasPushEnabled job.userId then
      match env.sendJobCompletionPush token job.jobId response with
      | .ok _ => .ok [.completionPushSent token job.jobId]
      | .error e =>
        if invalidTokenCode e.code then
          match env.removeFCMToken job.userId with
          | .ok _ => .ok [.tokenRemoved job.userId]
          | .error e2 => .error e2
        else .ok []
    else .ok []

/-- `ResponseRouter.routeResponse` — channel dispatch; the surrounding
try/catch logs and rethrows, so errors of the branches propagate
unchanged, as does the unsupported-channel error. -/
def routeResponse (env : RouterEnv) (job : Job) (response : String) :
    Except String (List DeliveryEvent) :=
  if job.channel == "whatsapp" then sendWhatsAppResponse env job response
  else if job.channel == "mobile" then sendMobileResponse env job response
  else .error ("Unsupported channel: " ++ job.channel)

/-- `ResponseRouter.sendWhatsAppError` — returns silently when Twilio is
unconfigured or the phone number is absent; otherwise maps the literal
timeout error to the "took too long" text and anything else to the
generic text, and forwards to the transport, whose failure propagates. -/
def sendWhatsAppError (env : RouterEnv) (job : Job) (errorMessage : String) :
    Except String (List DeliveryEvent) :=
  if !env.twilioConfigured then .ok []
  else
    match job.channelData.phoneNumber with
    | none => .ok []
    | some phone =>
      let userFriendlyMessage :=
        if errorMessage == aiTimeoutMessage then timeoutErrorText
        else genericErrorText
      match env.sendWhatsAppMessage phone userFriendlyMessage with
      | .ok _ => .ok [.whatsAppSent phone userFriendlyMessage]
      | .error e => .error e

/-- `ResponseRouter.sendMobileError` — mirror of `sendMobileResponse` for
the error push. -/
def sendMobileError (env : RouterEnv) (job : Job) (errorMessage : String) :
    Except String (List DeliveryEvent) :=
  match env.getFCMToken job.userId with
  | none => .ok []
  | some token =>
    if env.hasPushEnabled job.userId then
      match env.sendJobErrorPush token job.jobId errorMessage with
      | .ok _ => .ok [.errorPushSent token job.jobId]
      | .error e =>
        if invalidTokenCode e.code then
          match env.removeFCMToken job.userId with
          | .ok _ => .ok [.tokenRemoved job.userId]
          | .error e2 => .error e2
        else .ok []
    else .ok []

/-- `ResponseRouter.routeErrorResponse` — channel dispatch for the
failure path; its catch block logs and rethrows (`throw error`), so
branch errors propagate to the caller unchanged. -/
def routeErrorResponse (env : RouterEnv) (job : Job) (errorMessage : String) :
    Except String (List DeliveryEvent) :=
  if job.channel == "whatsapp" then sendWhatsAppError env job errorMessage
  else if job.channel == "mobile" then sendMobileError env job errorMessage
  else .error ("Unsupported channel: " ++ job.channel)

/-! ## Async worker (`asyncWorker.js`) -/

/-- Behaviour of one `crucible.queryAndSynthesize` call: it either
resolves with a response or rejects with an error, after `elapsedMs`
milliseconds. -/
inductive CrucibleOutcome : Type
  | resolves (response : String) (elapsedMs : Nat)
  | rejects (error : String) (elapsedMs : Nat)
deriving DecidableEq, Repr

/-- `AsyncWorker.processWithCrucible` — `Promise.race` of the crucible
call against a timer that rejects with `aiTimeoutMessage` after
`maxJobProcessingTime` ms: the crucible outcome wins only when it settles
strictly before the timer fires. -/
def processWithCrucible (outcome : CrucibleOutcome)
    (maxJobProcessingTime : Nat) : Except String String :=
  match outcome with
  | .resolves r t =>
    if t < maxJobProcessingTime then .ok r else .error aiTimeoutMessage
  | .rejects e t =>
    if t < maxJobProcessingTime then .error e else .error aiTimeoutMessage

/-- Elapsed time observed by `processJob` when the race settles. -/
def raceElapsed (outcome : CrucibleOutcome) (maxJobProcessingTime : Nat) : Nat :=
  match outcome with
  | .resolves _ t => min t maxJobProcessingTime
  | .rejects _ t => min t maxJobProcessingTime

/-- Combined state touched by the worker: job table, lock table and the
in-process `processingJobs` set (a JavaScript `Set` of job ids, modelled
as a duplicate-free list). -/
structure SysState : Type where
  jobStore : JobStore
  lockStore : LockStore
  processingSet : List Nat

/-- Observable steps of `AsyncWorker.processJob`. -/
inductive WEvent : Type
  | lockedUser (userId : String)
  | statusUpdate (jobId : Nat) (status : Status) (result : Option JobResult)
  | routeSuccess (jobId : Nat)
  | routeFailure (jobId : Nat) (errorMessage : String)
  | delivered (e : DeliveryEvent)
  | unlockOk (userId : String)
  | unlockFailed (userId : String)
  | removeFromSet (jobId : Nat)
deriving DecidableEq, Repr

/-- The worker's collaborators and per-run behaviour: the router's
environment, the crucible call's outcome, whether the final `unlockUser`
call raises, and the configured per-job budget. -/
structure WorkerEnv : Type where
  router : RouterEnv
  outcome : CrucibleOutcome
  unlockFails : Bool
  maxJobProcessingTime : Nat

/-- The catch block of `processJob`: mark the job failed with
`{error, failedAt, processingTime}`, then route the error response;
an error raised by the routing itself propagates (it is rethrown by
`routeErrorResponse`), to be caught only by `processNextJob`'s
fire-and-forget `.catch`. -/
def processJobCatch (env : WorkerEnv) (job : Job) (js1 : JobStore)
    (ls1 : LockStore) (ps : List Nat) (now elapsed : Nat) (m : String)
    (evts0 : List WEvent) : SysState × List WEvent × Option String :=
  let res : JobResult := .failure m (now + elapsed) elapsed
  let js2 := updateJobStatus js1 (now + elapsed) job.jobId .failed (some res)
  match routeErrorResponse env.router job m with
  | .ok ds =>
    (⟨js2, ls1, ps⟩,
      evts0 ++ [.statusUpdate job.jobId .failed (some res),
        .routeFailure job.jobId m] ++ ds.map .delivered, none)
  | .error e =>
    (⟨js2, ls1, ps⟩,
      evts0 ++ [.statusUpdate job.jobId .failed (some res),
        .routeFailure job.jobId m], some e)

/-- The try/catch part of `AsyncWorker.processJob` (everything before the
finally block): lock the user for `ceil(maxJobProcessingTime / 1000)`
seconds, mark the job `processing`, run the raced crucible call; on
success route the response FIRST and only then mark the job `completed`
(this is the source's order); on any raised error fall to the catch
block. -/
def processJobBody (env : WorkerEnv) (job : Job) (st : SysState)
    (now : Nat) : SysState × List WEvent × Option String :=
  let ls1 := lockUser st.lockStore job.userId now
    ((env.maxJobProcessingTime + 999) / 1000)
  let js1 := updateJobStatus st.jobStore now job.jobId .processing none
  let evts0 : List WEvent :=
    [.lockedUser job.userId, .statusUpdate job.jobId .processing none]
  let elapsed := raceElapsed env.outcome env.maxJobProcessingTime
  match processWithCrucible env.outcome env.maxJobProcessingTime with
  | .ok response =>
    match routeResponse env.router job response with
    | .ok ds =>
      let res : JobResult := .success response (now + elapsed) elapsed
      let js2 := updateJobStatus js1 (now + elapsed) job.jobId .completed (some res)
      (⟨js2, ls1, st.processingSet⟩,
        evts0 ++ [.routeSuccess job.jobId] ++ ds.map .delivered
          ++ [.statusUpdate job.jobId .completed (some res)], none)
    | .error m =>
      processJobCatch env job js1 ls1 st.processingSet now elapsed m evts0
  | .error m =>
    processJobCatch env job js1 ls1 st.processingSet now elapsed m evts0

/-- The finally block of `processJob`: attempt `unlockUser` — its failure
is logged, never propagated — then delete the id from `processingJobs`
(JavaScript `Set.delete`). -/
def processJobFinally (env : WorkerEnv) (job : Job) (st : SysState) :
    SysState × List WEvent :=
  let unlockStep :=
    if env.unlockFails then (st.lockStore, WEvent.unlockFailed job.userId)
    else (unlockUser st.lockStore job.userId, WEvent.unlockOk job.userId)
  (⟨st.jobStore, unlockStep.1,
      st.processingSet.filter (fun i => i != job.jobId)⟩,
    [unlockStep.2, .removeFromSet job.jobId])

/-- `AsyncWorker.processJob` — try/catch body followed by the finally
block; the returned `Option String` is the error (if any) that the
returned promise rejects with. -/
def processJob (env : WorkerEnv) (job : Job) (st : SysState) (now : Nat) :
    SysState × List WEvent × Option String :=
  let body := processJobBody env job st now
  let fin := processJobFinally env job body.1
  (fin.1, body.2.1 ++ fin.2, body.2.2)

/-- `AsyncWorker.processNextJob` — fetch at most ONE due pending job
(`getPendingJobs(1)`, no channel); its surrounding try/catch logs a
store error and returns `false`, claiming nothing; also skip (claiming
nothing) when there is no job, when it is already in `processingJobs`,
or when its user is locked; otherwise add its id to `processingJobs` and
fire `processJob` in the background.  Returns the claimed job, if
any. -/
def processNextJob (st : SysState) (now : Nat) : SysState × Option Job :=
  match getPendingJobs st.jobStore now 1 none with
  | .error _ => (st, none)
  | .ok [] => (st, none)
  | .ok (job :: _) =>
    if st.processingSet.contains job.jobId then (st, none)
    else if isUserLocked st.lockStore job.userId now then (st, none)
    else (⟨st.jobStore, st.lockStore, job.jobId :: st.processingSet⟩, some job)

/-- One tick of `startPolling`'s interval callback (worker running, not
approaching its deadline): claim a job only when the in-process count is
strictly below `maxConcurrentJobs`. -/
def pollCycle (maxConcurrentJobs : Nat) (st : SysState) (now : Nat) : SysState :=
  if st.processingSet.length < maxConcurrentJobs then (processNextJob st now).1
  else st

/-- States reachable by a worker configured with `maxConcurrentJobs`,
starting from an empty in-process set.  `finish` over-approximates a job
body completing (its finally block deletes the id from the set; the job
and lock tables may have been rewritten arbitrarily by concurrent job
bodies and other writers), and `hardStop` covers `forceStop` / the
`stop()` timeout, both of which clear the set. -/
inductive Reachable (maxConcurrentJobs : Nat) : SysState → Prop
  | init (js : JobStore) (ls : LockStore) :
      Reachable maxConcurrentJobs ⟨js, ls, []⟩
  | poll (st : SysState) (now : Nat) :
      Reachable maxConcurrentJobs st →
      Reachable maxConcurrentJobs (pollCycle maxConcurrentJobs st now)
  | finish (st : SysState) (jid : Nat) (js : JobStore) (ls : LockStore) :
      Reachable maxConcurrentJobs st →
      Reachable maxConcurrentJobs
        ⟨js, ls, st.processingSet.filter (fun i => i != jid)⟩
  | hardStop (st : SysState) :
      Reachable maxConcurrentJobs st →
      Reachable maxConcurrentJobs ⟨st.jobStore, st.lockStore, []⟩

/-! ## Shared helper lemmas and concrete demonstration values -/

/-- A concrete job record used in witnesses and counterexamples. -/
def demoJob (id : Nat) (st : Status) : Job :=
  { jobId := id
    status := st
    createdAt := 1
    updatedAt := none
    ttl := 600
    channel := "whatsapp"
    userId := "u1"
    prompt := "hi"
    channelData := ⟨some "+15550100"⟩
    priority := "normal"
    result := none }

/-- A concrete lock table holding a live lease for `"alice"`. -/
def demoLockStore : LockStore :=
  fun u => if u == "alice" then some ⟨"locked", 100⟩ else none

/-- `getJob` after `updateJobStatus` at the same key returns the record
with exactly the status/updatedAt/result rewrite the update expression
performs. -/
theorem getJob_updateJobStatus (store : JobStore) (now jobId : Nat)
    (status : Status) (result : Option JobResult) (j : Job)
    (h : getJob store jobId = some j) :
    getJob (updateJobStatus store now jobId status result) jobId =
      some { j with
        status := status
        updatedAt := some now
        result := match result with
          | some r => some r
          | none => j.result } := by
  unfold getJob updateJobStatus at *
  rw [List.find?_map]
  have hpres : ∀ x : Job,
      ((fun j => j.jobId == jobId) ∘ (fun j =>
        if j.jobId == jobId then
          { j with
            status := status
            updatedAt := some now
            result := match result with
              | some r => some r
              | none => j.result }
        else j)) x = (fun j : Job => j.jobId == jobId) x := by
    intro x
    by_cases hx : x.jobId == jobId <;> simp [Function.comp, hx]
  rw [funext hpres, h]
  have hj := List.find?_some h
  simp only at hj
  simp [Option.map, hj]

/-! ## Claim C2 — terminal statuses and `updateJobStatus` -/

/-- C2 counterexample: `updateJobStatus` has no condition expression, so a
job already `completed` is regressed to `pending` by a subsequent
non-terminal update — the stored status does change. -/
theorem updateJobStatus_terminal_regression :
    ((getJob ⟨[demoJob 1 .completed], 2⟩ 1).map Job.status = some .completed)
    ∧ ((getJob (updateJobStatus ⟨[demoJob 1 .completed], 2⟩ 5 1 .pending none) 1).map
        Job.status = some .pending) := by
  constructor <;> decide

/-- C2 amended: `updateJobStatus` unconditionally overwrites the stored
status (and `updatedAt`, and the result when one is passed), whatever the
previous status was — terminal statuses included; no forward-only guard
exists. -/
theorem updateJobStatus_overwrites (store : JobStore) (now jobId : Nat)
    (status : Status) (result : Option JobResult) (j : Job)
    (h : getJob store jobId = some j) :
    ∃ j', getJob (updateJobStatus store now jobId status result) jobId = some j'
      ∧ j'.status = status ∧ j'.updatedAt = some now
      ∧ j'.result = (match result with | some r => some r | none => j.result) :=
  ⟨_, getJob_updateJobStatus store now jobId status result j h, rfl, rfl, rfl⟩

/-- C2 witness: the amended theorem applied to a concrete store holding a
completed job, updated to `pending`. -/
theorem updateJobStatus_overwrites_witness :
    ∃ j', getJob (updateJobStatus ⟨[demoJob 1 .completed], 2⟩ 5 1 .pending none) 1 =
        some j'
      ∧ j'.status = .pending ∧ j'.updatedAt = some 5
      ∧ j'.result = (demoJob 1 .completed).result :=
  updateJobStatus_overwrites ⟨[demoJob 1 .completed], 2⟩ 5 1 .pending none
    (demoJob 1 .completed) (by decide)

/-! ## Claim C9 — the lock predicate -/

/-- C9: `isUserLocked` is true exactly when a lease row exists whose
expiry (`ttl`, epoch seconds) is strictly in the future; an expired lease
is treated as absent.  The `status === 'locked'` conjunct the code also
checks is vacuous for every row the service itself can create: `lockUser`
only ever writes `locked` rows and `unlockUser` only deletes, as the two
preservation conjuncts state. -/
theorem isUserLocked_iff_live_lease (ls : LockStore) (u v : String)
    (nowMs now2Ms ttlSeconds : Nat)
    (hwf : ∀ r, ls u = some r → r.status = "locked") :
    (isUserLocked ls u nowMs = true ↔
      ∃ r, ls u = some r ∧ r.ttl > nowMs / 1000)
    ∧ (∀ r, lockUser ls v now2Ms ttlSeconds u = some r → r.status = "locked")
    ∧ (∀ r, unlockUser ls v u = some r → r.status = "locked") := by
  refine ⟨?_, ?_, ?_⟩
  · unfold isUserLocked
    cases hls : ls u with
    | none => simp
    | some r =>
      have hst := hwf r hls
      simp [hst]
  · intro r hr
    unfold lockUser at hr
    split at hr
    · cases hr; rfl
    · exact hwf r hr
  · intro r hr
    unfold unlockUser at hr
    split at hr
    · cases hr
    · exact hwf r hr

/-- C9 witness: the live lease for `"alice"` in the demo lock table. -/
theorem isUserLocked_iff_live_lease_witness :
    (isUserLocked demoLockStore "alice" 50000 = true ↔
      ∃ r, demoLockStore "alice" = some r ∧ r.ttl > 50000 / 1000)
    ∧ (∀ r, lockUser demoLockStore "bob" 0 5 "alice" = some r →
        r.status = "locked")
    ∧ (∀ r, unlockUser demoLockStore "bob" "alice" = some r →
        r.status = "locked") :=
  isUserLocked_iff_live_lease demoLockStore "alice" "bob" 50000 0 5
    (fun r h => by
      have hd : demoLockStore "alice" = some ⟨"locked", 100⟩ := by decide
      rw [hd] at h
      injection h with h2
      rw [← h2])

/-! ## Claim C5 — enqueue validation and visibility -/

/-- C5: `enqueueJob` raises exactly when `channel`, `userId` or `prompt`
is missing (JavaScript-falsy) or the channel is not on the whitelist; on
the error path it throws before the `PutCommand`, so no record is
created; on every valid input the returned id is fresh (absent before the
call, given that stored ids come from the counter) and immediately
resolves to a `pending` job with no `result`. -/
theorem enqueueJob_spec (store : JobStore) (now : Nat) (d : JobData)
    (hfresh : ∀ j ∈ store.jobs, j.jobId < store.nextId) :
    ((∃ e, enqueueJob store now d = .error e) ↔
      ¬(truthy d.channel = true ∧ truthy d.userId = true
        ∧ truthy d.prompt = true
        ∧ validChannel (d.channel.getD "") = true))
    ∧ (∀ id store', enqueueJob store now d = .ok (id, store') →
        getJob store id = none
        ∧ ∃ job, getJob store' id = some job ∧ job.status = .pending
            ∧ job.result = none ∧ job.createdAt = now) := by
  have hnone : getJob store store.nextId = none := by
    unfold getJob
    rw [List.find?_eq_none]
    intro j hj
    simp [Nat.ne_of_lt (hfresh j hj)]
  unfold enqueueJob
  by_cases h1 : (!truthy d.channel || !truthy d.userId || !truthy d.prompt) = true
  · rw [if_pos h1]
    simp only [Bool.or_eq_true, Bool.not_eq_true'] at h1
    constructor
    · constructor
      · intro _ hc
        obtain ⟨hc1, hc2, hc3, _⟩ := hc
        rcases h1 with (h | h) | h
        · rw [h] at hc1; exact Bool.false_ne_true hc1
        · rw [h] at hc2; exact Bool.false_ne_true hc2
        · rw [h] at hc3; exact Bool.false_ne_true hc3
      · intro _; exact ⟨_, rfl⟩
    · intro id store' hok
      exact absurd hok (by simp)
  · rw [if_neg h1]
    have h1f := eq_false_of_ne_true h1
    simp only [Bool.or_eq_false_iff, Bool.not_eq_false'] at h1f
    by_cases h2 : (!validChannel (d.channel.getD "")) = true
    · rw [if_pos h2]
      simp only [Bool.not_eq_true'] at h2
      constructor
      · constructor
        · intro _ hc
          obtain ⟨_, _, _, hc4⟩ := hc
          rw [h2] at hc4
          exact Bool.false_ne_true hc4
        · intro _; exact ⟨_, rfl⟩
      · intro id store' hok
        exact absurd hok (by simp)
    · rw [if_neg h2]
      have h2f := eq_false_of_ne_true h2
      simp only [Bool.not_eq_false'] at h2f
      constructor
      · constructor
        · intro he
          rcases he with ⟨e, he⟩
          exact absurd he (by simp)
        · intro hc
          exact absurd ⟨h1f.1.1, h1f.1.2, h1f.2, h2f⟩ hc
      · intro id store' hok
        rw [Except.ok.injEq, Prod.mk.injEq] at hok
        obtain ⟨hid, hstore⟩ := hok
        subst hid
        subst hstore
        refine ⟨hnone, ?_⟩
        refine ⟨{ jobId := store.nextId
                  status := .pending
                  createdAt := now
                  updatedAt := none
                  ttl := now / 1000 + 10 * 60
                  channel := d.channel.getD ""
                  userId := d.userId.getD ""
                  prompt := d.prompt.getD ""
                  channelData := d.channelData.getD ⟨none⟩
                  priority := if truthy d.priority then d.priority.getD "" else "normal"
                  result := none }, ?_, rfl, rfl, rfl⟩
        unfold getJob putJob
        simp

/-- A concrete valid enqueue input. -/
def demoJobData : JobData :=
  { channel := some "whatsapp"
    userId := some "u1"
    prompt := some "hi"
    channelData := some ⟨some "+15550100"⟩
    priority := none }

/-- The job record produced by enqueueing `demoJobData` into the empty
store at time 7. -/
def demoEnqueuedJob : Job :=
  { jobId := 0
    status := .pending
    createdAt := 7
    updatedAt := none
    ttl := 600
    channel := "whatsapp"
    userId := "u1"
    prompt := "hi"
    channelData := ⟨some "+15550100"⟩
    priority := "normal"
    result := none }

/-- The store produced by enqueueing `demoJobData` into the empty store
at time 7. -/
def demoEnqueuedStore : JobStore := ⟨[demoEnqueuedJob], 1⟩

/-- C5 witness: the success branch of the spec on a concrete valid
input. -/
theorem enqueueJob_spec_witness :
    getJob (⟨[], 0⟩ : JobStore) 0 = none
    ∧ ∃ job, getJob demoEnqueuedStore 0 = some job ∧ job.status = .pending
        ∧ job.result = none ∧ job.createdAt = 7 :=
  (enqueueJob_spec ⟨[], 0⟩ 7 demoJobData (by simp)).2 0 demoEnqueuedStore
    (by simp [enqueueJob, demoJobData, truthy, validChannel, putJob,
      demoEnqueuedStore, demoEnqueuedJob])

/-! ## Claim C8 — the pending-due query -/

/-- C8 (code bug): the channel-free query returns only `pending` jobs
whose `createdAt` is not after the query time, ascending by `createdAt`,
at most `limit` of them; but the claim's channel-restriction clause
describes behaviour the program does not have — the built
`KeyConditionExpression` references `channel`, which is not a key of
`StatusCreatedAtIndex`, so every channel-supplied call is rejected by
the store with a `ValidationException` and no channel-filtered list is
ever returned, contrary to the function's own `Optional channel filter`
doc comment. -/
theorem getPendingJobs_channel_rejected (store : JobStore) (now limit : Nat)
    (c : String) :
    (∃ e, getPendingJobs store now limit (some c) = .error e)
    ∧ (∀ jobs, getPendingJobs store now limit none = .ok jobs →
        (∀ j ∈ jobs, j.status = .pending ∧ j.createdAt ≤ now)
        ∧ List.Sorted createdLE jobs
        ∧ jobs.length ≤ limit) := by
  constructor
  · exact ⟨_, rfl⟩
  · intro jobs hok
    have hnone : getPendingJobs store now limit none =
        .ok (((store.jobs.filter (pendingDueP now none)).insertionSort
          createdLE).take limit) := rfl
    rw [hnone, Except.ok.injEq] at hok
    subst hok
    refine ⟨?_, ?_, ?_⟩
    · intro j hj
      have hj1 : j ∈ (store.jobs.filter (pendingDueP now none)).insertionSort createdLE :=
        List.mem_of_mem_take hj
      have hj2 : j ∈ store.jobs.filter (pendingDueP now none) :=
        (List.perm_insertionSort createdLE _).mem_iff.mp hj1
      have hp : pendingDueP now none j = true := (List.mem_filter.mp hj2).2
      unfold pendingDueP at hp
      simp only [Bool.and_eq_true, beq_iff_eq, decide_eq_true_eq] at hp
      exact ⟨hp.1.1, hp.1.2⟩
    · exact List.Pairwise.sublist (List.take_sublist _ _)
        (List.sorted_insertionSort createdLE _)
    · exact List.length_take_le _ _

/-- A concrete store with one due pending whatsapp job and one completed
job. -/
def demoStore8 : JobStore := ⟨[demoJob 2 .completed, demoJob 1 .pending], 3⟩

/-- C8 witness: the rejected channel-supplied query and the accepted
channel-free query at a concrete store. -/
theorem getPendingJobs_channel_rejected_witness :
    (∃ e, getPendingJobs demoStore8 5 2 (some "whatsapp") = .error e)
    ∧ ((demoJob 1 .pending).status = .pending
        ∧ (demoJob 1 .pending).createdAt ≤ 5) :=
  ⟨(getPendingJobs_channel_rejected demoStore8 5 2 "whatsapp").1,
    ((getPendingJobs_channel_rejected demoStore8 5 2 "whatsapp").2
      [demoJob 1 .pending] rfl).1 (demoJob 1 .pending) (by decide)⟩

/-! ## Claim C3 — delivery failures on the failure path -/

/-- A router environment whose transports all succeed and that knows no
push tokens. -/
def okWhatsAppRouter : RouterEnv :=
  { twilioConfigured := true
    sendWhatsAppMessage := fun _ _ => .ok ()
    sendCrucibleResponse := fun _ _ _ => .ok ()
    getFCMToken := fun _ => none
    hasPushEnabled := fun _ => false
    sendJobCompletionPush := fun _ _ _ => .ok ()
    sendJobErrorPush := fun _ _ _ => .ok ()
    removeFCMToken := fun _ => .ok () }

/-- The same router with a failing text-message transport. -/
def failingTwilioRouter : RouterEnv :=
  { okWhatsAppRouter with
    sendWhatsAppMessage := fun _ _ => .error "Twilio transport failure" }

/-- A concrete failed mobile-channel job. -/
def demoMobileJob : Job := { demoJob 2 .failed with channel := "mobile" }

/-- C3 counterexample: on the whatsapp failure path a transport error is
NOT swallowed — `routeErrorResponse`'s catch logs and rethrows it, so the
delivery failure propagates to the caller. -/
theorem routeErrorResponse_propagates_transport_failure :
    routeErrorResponse failingTwilioRouter (demoJob 1 .failed) "boom" =
      .error "Twilio transport failure" := by
  rfl

/-- A mobile failure delivery always returns successfully when token
eviction succeeds, whatever the push transport does. -/
theorem sendMobileError_ok (env : RouterEnv) (job : Job) (m : String)
    (hremove : env.removeFCMToken job.userId = .ok ()) :
    ∃ ds, sendMobileError env job m = .ok ds := by
  unfold sendMobileError
  cases htok : env.getFCMToken job.userId with
  | none => exact ⟨[], rfl⟩
  | some token =>
    dsimp only
    by_cases hen : env.hasPushEnabled job.userId = true
    · rw [if_pos hen]
      cases hpush : env.sendJobErrorPush token job.jobId m with
      | ok u => exact ⟨_, rfl⟩
      | error pe =>
        dsimp only
        by_cases hcode : invalidTokenCode pe.code = true
        · rw [if_pos hcode, hremove]
          exact ⟨_, rfl⟩
        · rw [if_neg hcode]
          exact ⟨[], rfl⟩
    · rw [if_neg hen]
      exact ⟨[], rfl⟩

/-- C3 amended: delivery failures on the mobile failure path are caught
and swallowed (with invalid tokens evicted; only a failing eviction
itself propagates), while on the whatsapp failure path a transport
failure is logged and rethrown to the caller — the worker survives only
because `processNextJob` attaches a catch to the fire-and-forget
`processJob` promise. -/
theorem routeErrorResponse_delivery_failure_policy
    (env : RouterEnv) (job job' : Job) (m m' phone e : String)
    (hchan : job.channel = "mobile")
    (hremove : env.removeFCMToken job.userId = .ok ())
    (hchan' : job'.channel = "whatsapp")
    (hconf : env.twilioConfigured = true)
    (hphone : job'.channelData.phoneNumber = some phone)
    (hsend : ∀ msg, env.sendWhatsAppMessage phone msg = .error e) :
    (∃ ds, routeErrorResponse env job m = .ok ds)
    ∧ routeErrorResponse env job' m' = .error e := by
  constructor
  · have hdispatch : routeErrorResponse env job m = sendMobileError env job m := by
      unfold routeErrorResponse
      rw [hchan]
      simp
    rw [hdispatch]
    exact sendMobileError_ok env job m hremove
  · have hdispatch : routeErrorResponse env job' m' = sendWhatsAppError env job' m' := by
      unfold routeErrorResponse
      rw [hchan']
      simp
    rw [hdispatch]
    unfold sendWhatsAppError
    rw [hconf, hphone]
    simp only [Bool.not_true, Bool.false_eq_true, if_false]
    rw [hsend]

/-- C3 witness: both halves of the amended policy at a concrete router
whose text transport fails. -/
theorem routeErrorResponse_delivery_failure_policy_witness :
    (∃ ds, routeErrorResponse failingTwilioRouter demoMobileJob "boom" = .ok ds)
    ∧ routeErrorResponse failingTwilioRouter (demoJob 1 .failed) "oops" =
        .error "Twilio transport failure" :=
  routeErrorResponse_delivery_failure_policy failingTwilioRouter demoMobileJob
    (demoJob 1 .failed) "boom" "oops" "+15550100" "Twilio transport failure"
    rfl rfl rfl rfl rfl (fun _ => rfl)

/-! ## Claim C7 — the finally block always unlocks and deletes -/

/-- The try/catch body of `processJob` never reads `unlockFails`: only
the finally block attempts the unlock. -/
theorem processJobBody_unlock_irrelevant (env : WorkerEnv) (b : Bool)
    (job : Job) (st : SysState) (now : Nat) :
    processJobBody { env with unlockFails := b } job st now =
      processJobBody env job st now := rfl

/-- C7: whatever the crucible outcome, the router behaviour (including a
throwing delivery) and the unlock call do, `processJob` ends by
attempting the unlock and deleting the job id from the in-process set:
the final state never contains the id, the trace ends with the unlock
attempt followed by the removal, and a failing unlock changes neither the
propagated error nor the resulting set (it is logged, not rethrown). -/
theorem processJob_finally_cleanup (env : WorkerEnv) (job : Job)
    (st : SysState) (now : Nat) :
    job.jobId ∉ (processJob env job st now).1.processingSet
    ∧ (∃ evts, (processJob env job st now).2.1 = evts ++
        [(if env.unlockFails then WEvent.unlockFailed job.userId
          else WEvent.unlockOk job.userId),
         WEvent.removeFromSet job.jobId])
    ∧ (processJob env job st now).2.2 =
        (processJob { env with unlockFails := false } job st now).2.2
    ∧ (processJob env job st now).1.processingSet =
        (processJob { env with unlockFails := false } job st now).1.processingSet := by
  have hbody : processJobBody { env with unlockFails := false } job st now =
      processJobBody env job st now :=
    processJobBody_unlock_irrelevant env false job st now
  by_cases hu : env.unlockFails = true
  · refine ⟨?_, ?_, ?_, ?_⟩
    · simp [processJob, processJobFinally, hu, List.mem_filter]
    · exact ⟨(processJobBody env job st now).2.1,
        by simp [processJob, processJobFinally, hu]⟩
    · simp [processJob, processJobFinally, hbody]
    · simp [processJob, processJobFinally, hu, hbody]
  · refine ⟨?_, ?_, ?_, ?_⟩
    · simp [processJob, processJobFinally, hu, List.mem_filter]
    · exact ⟨(processJobBody env job st now).2.1,
        by simp [processJob, processJobFinally, hu]⟩
    · simp [processJob, processJobFinally, hbody]
    · simp [processJob, processJobFinally, hu, hbody]

/-! ## Claim C1 — order of status update and delivery -/

/-- Recognizer for the completed status update of a given job in the
trace. -/
def isCompletedUpdate (jobId : Nat) : WEvent → Bool
  | .statusUpdate j .completed _ => j == jobId
  | _ => false

/-- Recognizer for the success delivery of a given job in the trace. -/
def isRouteSuccess (jobId : Nat) : WEvent → Bool
  | .routeSuccess j => j == jobId
  | _ => false

/-- The success-path ordering the spec asserts: both the completed update
and the success delivery occur, and the update strictly precedes the
delivery. -/
def completedUpdatePrecedesDelivery (evts : List WEvent) (jobId : Nat) : Bool :=
  match evts.findIdx? (isCompletedUpdate jobId),
      evts.findIdx? (isRouteSuccess jobId) with
  | some ui, some ri => decide (ui < ri)
  | _, _ => false

/-- A worker run whose crucible call resolves quickly and whose whatsapp
delivery succeeds. -/
def demoSuccessEnv : WorkerEnv :=
  { router := okWhatsAppRouter
    outcome := .resolves "hello" 10
    unlockFails := false
    maxJobProcessingTime := 300000 }

/-- A system state holding one pending whatsapp job whose id has just
been claimed into the in-process set. -/
def demoSysState : SysState := ⟨⟨[demoJob 1 .pending], 2⟩, fun _ => none, [1]⟩

/-- C1 counterexample: on a successful run the worker routes the success
delivery (trace index 2) strictly BEFORE it updates the job to
`completed` (trace index 4) — the spec's update-then-deliver order is
false on the success path. -/
theorem processJob_success_routes_before_update :
    ((processJob demoSuccessEnv (demoJob 1 .pending) demoSysState 100).2.1.findIdx?
        (isRouteSuccess 1) = some 2)
    ∧ ((processJob demoSuccessEnv (demoJob 1 .pending) demoSysState 100).2.1.findIdx?
        (isCompletedUpdate 1) = some 4)
    ∧ completedUpdatePrecedesDelivery
        (processJob demoSuccessEnv (demoJob 1 .pending) demoSysState 100).2.1 1 = false := by
  refine ⟨?_, ?_, ?_⟩ <;> decide

/-- C1 amended: on success the worker delivers via the Response Router's
success path FIRST and only then updates the job to `completed` with
`{response, completedAt, processingTime}`; on any error (timeout
included) it first updates the job to `failed` with
`{error, failedAt, processingTime}` and then delivers via the failure
path. -/
theorem processJob_update_delivery_order (env : WorkerEnv) (job : Job)
    (st : SysState) (now : Nat) (hu : env.unlockFails = false) :
    (∀ response ds,
      processWithCrucible env.outcome env.maxJobProcessingTime = .ok response →
      routeResponse env.router job response = .ok ds →
      (processJob env job st now).2.1 =
        [.lockedUser job.userId, .statusUpdate job.jobId .processing none,
          .routeSuccess job.jobId]
        ++ ds.map .delivered
        ++ [.statusUpdate job.jobId .completed (some (.success response
              (now + raceElapsed env.outcome env.maxJobProcessingTime)
              (raceElapsed env.outcome env.maxJobProcessingTime))),
            .unlockOk job.userId, .removeFromSet job.jobId])
    ∧ (∀ m ds,
      processWithCrucible env.outcome env.maxJobProcessingTime = .error m →
      routeErrorResponse env.router job m = .ok ds →
      (processJob env job st now).2.1 =
        [.lockedUser job.userId, .statusUpdate job.jobId .processing none,
          .statusUpdate job.jobId .failed (some (.failure m
            (now + raceElapsed env.outcome env.maxJobProcessingTime)
            (raceElapsed env.outcome env.maxJobProcessingTime))),
          .routeFailure job.jobId m]
        ++ ds.map .delivered
        ++ [.unlockOk job.userId, .removeFromSet job.jobId]) := by
  constructor
  · intro response ds hok hroute
    unfold processJob processJobBody processJobFinally
    rw [hok]
    dsimp only
    rw [hroute]
    simp [hu]
  · intro m ds herr hroute
    unfold processJob processJobBody processJobCatch processJobFinally
    rw [herr]
    dsimp only
    rw [hroute]
    simp [hu]

/-- C1 witness: the amended success-path order on the concrete successful
run. -/
theorem processJob_update_delivery_order_witness :
    (processJob demoSuccessEnv (demoJob 1 .pending) demoSysState 100).2.1 =
      [.lockedUser "u1", .statusUpdate 1 .processing none, .routeSuccess 1]
      ++ [WEvent.delivered (.crucibleResponseSent "+15550100" 1)]
      ++ [.statusUpdate 1 .completed (some (.success "hello" 110 10)),
          .unlockOk "u1", .removeFromSet 1] :=
  (processJob_update_delivery_order demoSuccessEnv (demoJob 1 .pending)
      demoSysState 100 rfl).1
    "hello" [.crucibleResponseSent "+15550100" 1] rfl rfl

/-! ## Claim C6 — per-job timeout -/

/-- Settlement time of the raced crucible call. -/
def outcomeElapsed : CrucibleOutcome → Nat
  | .resolves _ t => t
  | .rejects _ t => t

/-- C6: when the crucible call has not settled within
`maxJobProcessingTime`, the race timer wins with the literal
`AI processing timeout` error; the job ends `failed` with that error in
its result, and the routed whatsapp message is the "took too long"
variant, never the generic retry text. -/
theorem processJob_timeout_behaviour (env : WorkerEnv) (job : Job)
    (st : SysState) (now : Nat) (j0 : Job) (phone : String)
    (hslow : env.maxJobProcessingTime ≤ outcomeElapsed env.outcome)
    (hchan : job.channel = "whatsapp")
    (hconf : env.router.twilioConfigured = true)
    (hphone : job.channelData.phoneNumber = some phone)
    (hsend : env.router.sendWhatsAppMessage phone timeoutErrorText = .ok ())
    (hjob : getJob st.jobStore job.jobId = some j0) :
    processWithCrucible env.outcome env.maxJobProcessingTime =
      .error aiTimeoutMessage
    ∧ (∃ j', getJob (processJob env job st now).1.jobStore job.jobId = some j'
        ∧ j'.status = .failed
        ∧ j'.result = some (.failure aiTimeoutMessage
            (now + env.maxJobProcessingTime) env.maxJobProcessingTime))
    ∧ WEvent.delivered (.whatsAppSent phone timeoutErrorText) ∈
        (processJob env job st now).2.1
    ∧ WEvent.delivered (.whatsAppSent phone genericErrorText) ∉
        (processJob env job st now).2.1 := by
  have htimeout : processWithCrucible env.outcome env.maxJobProcessingTime =
      .error aiTimeoutMessage := by
    unfold processWithCrucible
    cases ho : env.outcome with
    | resolves r t =>
      rw [ho] at hslow
      simp only [outcomeElapsed] at hslow
      dsimp only
      rw [if_neg (Nat.not_lt.mpr hslow)]
    | rejects e t =>
      rw [ho] at hslow
      simp only [outcomeElapsed] at hslow
      dsimp only
      rw [if_neg (Nat.not_lt.mpr hslow)]
  have helapsed : raceElapsed env.outcome env.maxJobProcessingTime =
      env.maxJobProcessingTime := by
    unfold raceElapsed
    cases ho : env.outcome with
    | resolves r t =>
      rw [ho] at hslow
      simp only [outcomeElapsed] at hslow
      dsimp only
      exact Nat.min_eq_right hslow
    | rejects e t =>
      rw [ho] at hslow
      simp only [outcomeElapsed] at hslow
      dsimp only
      exact Nat.min_eq_right hslow
  have hmsg : (if (aiTimeoutMessage == aiTimeoutMessage) = true
      then timeoutErrorText else genericErrorText) = timeoutErrorText :=
    if_pos rfl
  have hroute : routeErrorResponse env.router job aiTimeoutMessage =
      .ok [.whatsAppSent phone timeoutErrorText] := by
    have hdispatch : routeErrorResponse env.router job aiTimeoutMessage =
        sendWhatsAppError env.router job aiTimeoutMessage := by
      unfold routeErrorResponse
      rw [hchan]
      simp
    rw [hdispatch]
    unfold sendWhatsAppError
    rw [hconf, hphone]
    simp only [Bool.not_true, Bool.false_eq_true, if_false]
    rw [hmsg, hsend]
  have htrace : (processJob env job st now).2.1 =
      [.lockedUser job.userId, .statusUpdate job.jobId .processing none,
        .statusUpdate job.jobId .failed (some (.failure aiTimeoutMessage
          (now + env.maxJobProcessingTime) env.maxJobProcessingTime)),
        .routeFailure job.jobId aiTimeoutMessage,
        .delivered (.whatsAppSent phone timeoutErrorText),
        (if env.unlockFails then WEvent.unlockFailed job.userId
          else WEvent.unlockOk job.userId),
        .removeFromSet job.jobId] := by
    unfold processJob processJobBody processJobCatch processJobFinally
    rw [htimeout]
    dsimp only
    rw [helapsed, hroute]
    by_cases hu : env.unlockFails = true <;> simp [hu]
  have hstore : (processJob env job st now).1.jobStore =
      updateJobStatus (updateJobStatus st.jobStore now job.jobId .processing none)
        (now + env.maxJobProcessingTime) job.jobId .failed
        (some (.failure aiTimeoutMessage (now + env.maxJobProcessingTime)
          env.maxJobProcessingTime)) := by
    unfold processJob processJobBody processJobCatch processJobFinally
    rw [htimeout]
    dsimp only
    rw [helapsed, hroute]
  refine ⟨htimeout, ?_, ?_, ?_⟩
  · rw [hstore]
    have h1 := getJob_updateJobStatus st.jobStore now job.jobId .processing none j0 hjob
    have h2 := getJob_updateJobStatus _ (now + env.maxJobProcessingTime) job.jobId
      .failed (some (.failure aiTimeoutMessage (now + env.maxJobProcessingTime)
        env.maxJobProcessingTime)) _ h1
    exact ⟨_, h2, rfl, rfl⟩
  · rw [htrace]
    simp
  · have hne2 : genericErrorText ≠ timeoutErrorText := by decide
    rw [htrace]
    by_cases hu : env.unlockFails = true <;> simp [hu, hne2]

/-- A worker run whose crucible call exceeds the per-job budget. -/
def demoTimeoutEnv : WorkerEnv :=
  { router := okWhatsAppRouter
    outcome := .resolves "late" 400000
    unlockFails := false
    maxJobProcessingTime := 300000 }

/-- C6 witness: the timeout behaviour on a concrete slow run. -/
theorem processJob_timeout_behaviour_witness :
    processWithCrucible demoTimeoutEnv.outcome demoTimeoutEnv.maxJobProcessingTime =
      .error aiTimeoutMessage
    ∧ (∃ j', getJob
          (processJob demoTimeoutEnv (demoJob 1 .pending) demoSysState 100).1.jobStore
          1 = some j'
        ∧ j'.status = .failed
        ∧ j'.result = some (.failure aiTimeoutMessage 300100 300000))
    ∧ WEvent.delivered (.whatsAppSent "+15550100" timeoutErrorText) ∈
        (processJob demoTimeoutEnv (demoJob 1 .pending) demoSysState 100).2.1
    ∧ WEvent.delivered (.whatsAppSent "+15550100" genericErrorText) ∉
        (processJob demoTimeoutEnv (demoJob 1 .pending) demoSysState 100).2.1 :=
  processJob_timeout_behaviour demoTimeoutEnv (demoJob 1 .pending) demoSysState 100
    (demoJob 1 .pending) "+15550100" (by decide) rfl rfl rfl rfl (by decide)

/-! ## Claim C4 — concurrency bound on the in-process set -/

/-- One poll claim grows the in-process set by at most one id. -/
theorem processNextJob_length (st : SysState) (now : Nat) :
    (processNextJob st now).1.processingSet.length ≤
      st.processingSet.length + 1 := by
  unfold processNextJob
  cases hg : getPendingJobs st.jobStore now 1 none with
  | error e => exact Nat.le_succ _
  | ok jobs =>
    cases jobs with
    | nil => exact Nat.le_succ _
    | cons job rest =>
      dsimp only
      by_cases hc : st.processingSet.contains job.jobId = true
      · rw [if_pos hc]
        exact Nat.le_succ _
      · rw [if_neg hc]
        by_cases hl : isUserLocked st.lockStore job.userId now = true
        · rw [if_pos hl]
          exact Nat.le_succ _
        · rw [if_neg hl]
          exact Nat.le_refl _

/-- C4: from an empty in-process set, every state reachable through poll
cycles, job-body completions and hard stops keeps at most
`maxConcurrentJobs` ids in the set — the poll guard admits a claim only
below the bound, and claims add one id at a time. -/
theorem processingSet_bounded (maxConcurrentJobs : Nat) (st : SysState)
    (h : Reachable maxConcurrentJobs st) :
    st.processingSet.length ≤ maxConcurrentJobs := by
  induction h with
  | init js ls => exact Nat.zero_le _
  | poll st now hst ih =>
    by_cases hlt : st.processingSet.length < maxConcurrentJobs
    · unfold pollCycle
      rw [if_pos hlt]
      exact Nat.le_trans (processNextJob_length st now) hlt
    · unfold pollCycle
      rw [if_neg hlt]
      exact ih
  | finish st jid js ls hst ih =>
    exact Nat.le_trans (List.length_filter_le _ _) ih
  | hardStop st hst ih => exact Nat.zero_le _

/-- C4 witness: the bound at a concrete reachable state. -/
theorem processingSet_bounded_witness :
    (⟨⟨[], 0⟩, demoLockStore, []⟩ : SysState).processingSet.length ≤ 3 :=
  processingSet_bounded 3 _ (Reachable.init ⟨[], 0⟩ demoLockStore)

/-! ## Claim C10 — only the head of the queue is considered -/

/-- The head of a non-empty `getPendingJobs` answer is a due pending job
of minimal `createdAt`. -/
theorem getPendingJobs_head_min (store : JobStore) (now limit : Nat)
    (channel : Option String) (job : Job) (rest : List Job)
    (h : getPendingJobs store now limit channel = .ok (job :: rest)) :
    job ∈ store.jobs ∧ pendingDueP now channel job = true
    ∧ ∀ j ∈ store.jobs, pendingDueP now channel j = true →
        job.createdAt ≤ j.createdAt := by
  have hvalid : getPendingJobs store now limit channel =
      .ok (((store.jobs.filter (pendingDueP now channel)).insertionSort
        createdLE).take limit)
      ∨ ∃ e, getPendingJobs store now limit channel = .error e := by
    unfold getPendingJobs
    split
    · exact Or.inl rfl
    · exact Or.inr ⟨_, rfl⟩
  rcases hvalid with hvalid | ⟨e, hvalid⟩
  swap
  · rw [hvalid] at h
    exact absurd h (by simp)
  rw [hvalid, Except.ok.injEq] at h
  obtain ⟨tail, htail⟩ : ∃ tail,
      (store.jobs.filter (pendingDueP now channel)).insertionSort createdLE =
        job :: tail := by
    cases hs : (store.jobs.filter (pendingDueP now channel)).insertionSort createdLE with
    | nil => rw [hs] at h; simp at h
    | cons a t =>
      rw [hs] at h
      cases limit with
      | zero => simp at h
      | succ n =>
        rw [List.take_succ_cons] at h
        injection h with h1 h2
        exact ⟨t, by rw [h1]⟩
  have hsorted := List.sorted_insertionSort createdLE
    (store.jobs.filter (pendingDueP now channel))
  have hperm := List.perm_insertionSort createdLE
    (store.jobs.filter (pendingDueP now channel))
  rw [htail] at hsorted hperm
  have hmemf : job ∈ store.jobs.filter (pendingDueP now channel) :=
    hperm.mem_iff.mp (List.mem_cons_self job tail)
  have hmem := List.mem_filter.mp hmemf
  refine ⟨hmem.1, hmem.2, ?_⟩
  intro j hj hpj
  have hjf : j ∈ job :: tail :=
    hperm.mem_iff.mpr (List.mem_filter.mpr ⟨hj, hpj⟩)
  rcases List.mem_cons.mp hjf with hEq | hTail
  · rw [hEq]
  · exact List.rel_of_sorted_cons hsorted j hTail

/-- C10: `processNextJob` fetches at most one job — the due pending job
of minimal `createdAt` — and claims nothing at all in the cycle when that
head job is already in the in-process set or its user is locked; younger
pending jobs are never considered. -/
theorem processNextJob_head_of_queue_only (st : SysState) (now : Nat) :
    (∀ job, (processNextJob st now).2 = some job →
        job ∈ st.jobStore.jobs ∧ pendingDueP now none job = true
        ∧ ∀ j ∈ st.jobStore.jobs, pendingDueP now none j = true →
            job.createdAt ≤ j.createdAt)
    ∧ (∀ job rest, getPendingJobs st.jobStore now 1 none = .ok (job :: rest) →
        (st.processingSet.contains job.jobId = true
          ∨ isUserLocked st.lockStore job.userId now = true) →
        processNextJob st now = (st, none)) := by
  constructor
  · intro job hsome
    unfold processNextJob at hsome
    cases hg : getPendingJobs st.jobStore now 1 none with
    | error e =>
      rw [hg] at hsome
      simp at hsome
    | ok jobs =>
      cases jobs with
      | nil =>
        rw [hg] at hsome
        simp at hsome
      | cons j0 rest =>
        rw [hg] at hsome
        dsimp only at hsome
        by_cases hc : st.processingSet.contains j0.jobId = true
        · rw [if_pos hc] at hsome
          simp at hsome
        · rw [if_neg hc] at hsome
          by_cases hl : isUserLocked st.lockStore j0.userId now = true
          · rw [if_pos hl] at hsome
            simp at hsome
          · rw [if_neg hl] at hsome
            simp only [Option.some.injEq] at hsome
            subst hsome
            exact getPendingJobs_head_min st.jobStore now 1 none j0 rest hg
  · intro job rest hg hskip
    unfold processNextJob
    rw [hg]
    dsimp only
    by_cases hc : st.processingSet.contains job.jobId = true
    · rw [if_pos hc]
    · rw [if_neg hc]
      rcases hskip with h | h
      · exact absurd h hc
      · rw [if_pos h]

/-- C10 witness: a head job whose id is already in the in-process set
blocks the whole cycle. -/
theorem processNextJob_head_of_queue_only_witness :
    processNextJob demoSysState 5 = (demoSysState, none) :=
  (processNextJob_head_of_queue_only demoSysState 5).2 (demoJob 1 .pending) []
    rfl (Or.inl (by decide))

end Crucible
